import Mathlib

/-!
Verification development for the simdjson-rs DOM core: the owned value
representation, the value capability interface of src/value.rs, and the
visitor-to-value encode engine of src/serde/value/owned/se.rs.

Machine integers are modelled as Nat / Int with explicit bounds where the
width matters.  64-bit floats are modelled by rational payloads; the encode
and access claims under study never compute with float arithmetic, they only
move payloads around and compare them against range bounds.  A Rust panic
(process abort) is modelled by the outer Option layer of the encode engine:
a result of none is a panic, while some (Except.error e) is the recoverable
error path and some (Except.ok v) is success.
-/

/-- Rational stand-in for the f64 payload of the DOM. The claims settled here
never perform float arithmetic on it. -/
abbrev F64Bits := Rat

/-- The owned DOM value, from crate::value::owned as it is matched on
throughout src/serde/value/owned/se.rs and described in the spec:
tagged union over Null, Bool, I64, F64, String, Array, Object.  Object is
a mapping from String keys to values, modelled as an association list with
the HashMap operations below. -/
inductive Value where
  | Null : Value
  | Bool (b : Bool) : Value
  | I64 (i : Int) : Value
  | F64 (f : F64Bits) : Value
  | String (s : String) : Value
  | Array (xs : List Value) : Value
  | Object (m : List (String × Value)) : Value

/-- The Object payload type: crate::value::owned::Object, a hash map from
String to Value, modelled as an association list whose keys are unique. -/
abbrev Object := List (String × Value)

/-- HashMap::get on the association-list model: first entry with the key. -/
def objGet : Object → String → Option Value
  | [], _ => none
  | (k, w) :: rest, key => if k = key then some w else objGet rest key

/-- HashMap::insert on the association-list model: replace the entry in
place when the key is present (returning the previous value), append a fresh
entry otherwise (returning none). -/
def objInsert : Object → String → Value → Option Value × Object
  | [], key, x => (none, [(key, x)])
  | (k, w) :: rest, key, x =>
    if k = key then (some w, (k, x) :: rest)
    else
      let r := objInsert rest key x
      (r.1, (k, w) :: r.2)

/-- HashMap::remove on the association-list model: drop the entry with the
key, returning the removed value when it was present. -/
def objRemove : Object → String → Option Value × Object
  | [], _ => (none, [])
  | (k, w) :: rest, key =>
    if k = key then (some w, rest)
    else
      let r := objRemove rest key
      (r.1, (k, w) :: r.2)

/-- AccessError from src/value.rs lines 66-77. -/
inductive AccessError where
  | NotAnObject : AccessError
  | NotAnArray : AccessError
deriving DecidableEq

/-- The error categories of the crate error type that this core raises.
Error::generic wraps an ErrorType with a dummy position, so the error value
is identified with its category here. -/
inductive ErrorType where
  | UnexpectedCharacter : ErrorType
  | KeyMustBeAString : ErrorType
deriving DecidableEq

/-- Error as produced by Error::generic. -/
abbrev Error := ErrorType

/-- The serde data model: every shape a self-describing value can present to
a Serializer through the visitor protocol, one constructor per serialize_*
entry point of the Serializer trait.  Integer payloads are Nat / Int with
the width bound supplied at the call sites where it matters. -/
inductive SerdeValue where
  | vBool (b : Bool) : SerdeValue
  | vI8 (n : Int) : SerdeValue
  | vI16 (n : Int) : SerdeValue
  | vI32 (n : Int) : SerdeValue
  | vI64 (n : Int) : SerdeValue
  | vU8 (n : Nat) : SerdeValue
  | vU16 (n : Nat) : SerdeValue
  | vU32 (n : Nat) : SerdeValue
  | vU64 (n : Nat) : SerdeValue
  | vF32 (x : F64Bits) : SerdeValue
  | vF64 (x : F64Bits) : SerdeValue
  | vChar (c : Char) : SerdeValue
  | vStr (s : String) : SerdeValue
  | vBytes (bs : List Nat) : SerdeValue
  | vUnit : SerdeValue
  | vUnitStruct (name : String) : SerdeValue
  | vUnitVariant (name variant : String) : SerdeValue
  | vNewtypeStruct (name : String) (v : SerdeValue) : SerdeValue
  | vNewtypeVariant (name variant : String) (v : SerdeValue) : SerdeValue
  | vNone : SerdeValue
  | vSome (v : SerdeValue) : SerdeValue
  | vSeq (vs : List SerdeValue) : SerdeValue
  | vTuple (vs : List SerdeValue) : SerdeValue
  | vTupleStruct (name : String) (vs : List SerdeValue) : SerdeValue
  | vTupleVariant (name variant : String) (vs : List SerdeValue) : SerdeValue
  | vMap (entries : List (SerdeValue × SerdeValue)) : SerdeValue
  | vStruct (name : String) (fields : List (String × SerdeValue)) : SerdeValue
  | vStructVariant (name variant : String) (fields : List (String × SerdeValue)) : SerdeValue

/-- MapKeySerializer (se.rs lines 408-591), collapsed over the visitor
double dispatch: a plain string returns the string, a bare unit variant
returns the variant name, a newtype struct recurses into its payload, and
every other serialize_* method returns key_must_be_a_string().  Container
shapes error through the Impossible associated types before any element is
visited, so their payloads are irrelevant. -/
def mapKeySerialize : SerdeValue → Except Error String
  | .vStr s => .ok s
  | .vUnitVariant _ variant => .ok variant
  | .vNewtypeStruct _ v => mapKeySerialize v
  | _ => .error ErrorType.KeyMustBeAString

/-- Strips vNewtypeStruct wrappers, the only key shape through which
MapKeySerializer recurses. -/
def stripNewtype : SerdeValue → SerdeValue
  | .vNewtypeStruct _ v => stripNewtype v
  | v => v

/-- The u64-to-i64 bit reinterpretation performed by the expression
value as i64 in serialize_u64 (se.rs lines 103-107): values below 2^63 are
unchanged, values at or above 2^63 wrap to negative. -/
def u64_as_i64 (u : Nat) : Int :=
  if u < 2 ^ 63 then (u : Int) else (u : Int) - 2 ^ 64

/-- Serializer::serialize_bool. -/
def serialize_bool (b : Bool) : Except Error Value := .ok (.Bool b)

/-- Serializer::serialize_i64; serialize_i8 / i16 / i32 widen exactly into
it through i64::from. -/
def serialize_i64 (n : Int) : Except Error Value := .ok (.I64 n)

/-- Serializer::serialize_u64; serialize_u8 / u16 / u32 widen exactly into
it through u64::from.  The payload is reinterpreted by value as i64. -/
def serialize_u64 (u : Nat) : Except Error Value := .ok (.I64 (u64_as_i64 u))

/-- Serializer::serialize_f64; serialize_f32 widens exactly into it. -/
def serialize_f64 (x : F64Bits) : Except Error Value := .ok (.F64 x)

/-- Serializer::serialize_str: Value::from(value.to_owned()). -/
def serialize_str (s : String) : Except Error Value := .ok (.String s)

/-- Serializer::serialize_char: a fresh one-character string passed on to
serialize_str. -/
def serialize_char (c : Char) : Except Error Value :=
  serialize_str (String.singleton c)

/-- Serializer::serialize_bytes (se.rs lines 138-141): each byte widened
into an I64 element of an Array. -/
def serialize_bytes (bs : List Nat) : Except Error Value :=
  .ok (.Array (bs.map fun b => Value.I64 (Int.ofNat b)))

/-- Serializer::serialize_unit. -/
def serialize_unit : Except Error Value := .ok .Null

/-- The state of the SerializeMap::Map builder (se.rs lines 270-275): the
object built so far and the pending key, if one has been supplied. -/
structure SMapState where
  map : Object
  next_key : Option String

/-- SerializeMap::serialize_key (se.rs lines 356-372): run the key through
MapKeySerializer and store the resulting string as the pending key. -/
def serialize_key (st : SMapState) (k : SerdeValue) : Except Error SMapState :=
  match mapKeySerialize k with
  | .error e => .error e
  | .ok s => .ok ⟨st.map, some s⟩

mutual

/-- The encode engine entry point, to_value: dispatch of a self-describing
value onto the Serializer of se.rs.  A result of none models a panic; the
only panic site is the expect call inside serialize_value. -/
def toValue : SerdeValue → Option (Except Error Value)
  | .vBool b => some (serialize_bool b)
  | .vI8 n => some (serialize_i64 n)
  | .vI16 n => some (serialize_i64 n)
  | .vI32 n => some (serialize_i64 n)
  | .vI64 n => some (serialize_i64 n)
  | .vU8 n => some (serialize_u64 n)
  | .vU16 n => some (serialize_u64 n)
  | .vU32 n => some (serialize_u64 n)
  | .vU64 n => some (serialize_u64 n)
  | .vF32 x => some (serialize_f64 x)
  | .vF64 x => some (serialize_f64 x)
  | .vChar c => some (serialize_char c)
  | .vStr s => some (serialize_str s)
  | .vBytes bs => some (serialize_bytes bs)
  | .vUnit => some serialize_unit
  | .vUnitStruct _ => some serialize_unit
  | .vUnitVariant _ variant => some (serialize_str variant)
  | .vNewtypeStruct _ v => toValue v
  | .vNewtypeVariant _ variant v =>
    match toValue v with
    | none => none
    | some (.error e) => some (.error e)
    | some (.ok w) => some (.ok (.Object (objInsert [] variant w).2))
  | .vNone => some serialize_unit
  | .vSome v => toValue v
  | .vSeq vs =>
    match toValueList vs with
    | none => none
    | some (.error e) => some (.error e)
    | some (.ok ws) => some (.ok (.Array ws))
  | .vTuple vs =>
    match toValueList vs with
    | none => none
    | some (.error e) => some (.error e)
    | some (.ok ws) => some (.ok (.Array ws))
  | .vTupleStruct _ vs =>
    match toValueList vs with
    | none => none
    | some (.error e) => some (.error e)
    | some (.ok ws) => some (.ok (.Array ws))
  | .vTupleVariant _ variant vs =>
    match toValueList vs with
    | none => none
    | some (.error e) => some (.error e)
    | some (.ok ws) => some (.ok (.Object (objInsert [] variant (.Array ws)).2))
  | .vMap entries =>
    match serializeMapEntries ⟨[], none⟩ entries with
    | none => none
    | some (.error e) => some (.error e)
    | some (.ok st) => some (.ok (.Object st.map))
  | .vStruct _ fields =>
    match serializeStructFields ⟨[], none⟩ fields with
    | none => none
    | some (.error e) => some (.error e)
    | some (.ok st) => some (.ok (.Object st.map))
  | .vStructVariant _ variant fields =>
    match serializeStructVariantFields [] fields with
    | none => none
    | some (.error e) => some (.error e)
    | some (.ok m) => some (.ok (.Object (objInsert [] variant (.Object m)).2))
termination_by sv => sizeOf sv
decreasing_by all_goals simp_wf

/-- The SerializeSeq / SerializeTuple / SerializeTupleStruct /
SerializeTupleVariant element loop: vec.push(stry!(to_value(e))) for each
element, first error short-circuits, a panic below propagates. -/
def toValueList : List SerdeValue → Option (Except Error (List Value))
  | [] => some (.ok [])
  | v :: vs =>
    match toValue v with
    | none => none
    | some (.error e) => some (.error e)
    | some (.ok w) =>
      match toValueList vs with
      | none => none
      | some (.error e) => some (.error e)
      | some (.ok ws) => some (.ok (w :: ws))
termination_by vs => sizeOf vs
decreasing_by all_goals simp_wf <;> omega

/-- SerializeMap::serialize_value (se.rs lines 374-395): take the pending
key; when none is pending the expect call panics (modelled as none); then
insert the encoded value under the key, clearing the pending key. -/
def serialize_value (st : SMapState) (v : SerdeValue) : Option (Except Error SMapState) :=
  match st.next_key with
  | none => none
  | some key =>
    match toValue v with
    | none => none
    | some (.error e) => some (.error e)
    | some (.ok w) => some (.ok ⟨(objInsert st.map key w).2, none⟩)
termination_by sizeOf v + 1
decreasing_by all_goals simp_wf

/-- The serde-driven map entry loop: for every entry, serialize_entry calls
serialize_key and then serialize_value on the SerializeMap builder. -/
def serializeMapEntries (st : SMapState) : List (SerdeValue × SerdeValue) → Option (Except Error SMapState)
  | [] => some (.ok st)
  | (k, v) :: rest =>
    match serialize_key st k with
    | .error e => some (.error e)
    | .ok st1 =>
      match serialize_value st1 v with
      | none => none
      | some (.error e) => some (.error e)
      | some (.ok st2) => serializeMapEntries st2 rest
termination_by l => sizeOf l
decreasing_by all_goals simp_wf <;> omega

/-- SerializeStruct::serialize_field for the Map builder (se.rs lines
597-625): the static field name goes through serialize_key as a plain
string, then serialize_value runs on the field value. -/
def serializeStructFields (st : SMapState) : List (String × SerdeValue) → Option (Except Error SMapState)
  | [] => some (.ok st)
  | (k, v) :: rest =>
    match serialize_key st (.vStr k) with
    | .error e => some (.error e)
    | .ok st1 =>
      match serialize_value st1 v with
      | none => none
      | some (.error e) => some (.error e)
      | some (.ok st2) => serializeStructFields st2 rest
termination_by l => sizeOf l
decreasing_by all_goals simp_wf <;> omega

/-- SerializeStructVariant::serialize_field (se.rs lines 638-648): insert
each encoded field directly into the variant payload object. -/
def serializeStructVariantFields (m : Object) : List (String × SerdeValue) → Option (Except Error Object)
  | [] => some (.ok m)
  | (k, v) :: rest =>
    match toValue v with
    | none => none
    | some (.error e) => some (.error e)
    | some (.ok w) => serializeStructVariantFields (objInsert m k w).2 rest
termination_by l => sizeOf l
decreasing_by all_goals simp_wf <;> omega

end

/-- The abstract methods of ValueTrait (src/value.rs): the primitive
accessors each concrete representation must provide.  The default methods
below are generic over any record of these, exactly as the trait defaults
are generic over Self.  as_i64 yields a machine i64 and as_u64 a machine
u64; their range bounds are stated as hypotheses where a claim needs
them. -/
structure ValuePrims (V : Type) where
  as_bool : V → Option Bool
  as_i64 : V → Option Int
  as_u64 : V → Option Nat
  as_f64 : V → Option F64Bits
  cast_f64 : V → Option F64Bits
  as_str : V → Option String
  as_array : V → Option (List V)
  as_object : V → Option (List (String × V))
  is_null : V → Bool

/-- ValueTrait::as_i128 default: as_i64().and_then(try_into), where the
conversion from i64 into i128 is the infallible widening. -/
def as_i128 {V : Type} (P : ValuePrims V) (v : V) : Option Int :=
  (P.as_i64 v).bind fun u => some u

/-- ValueTrait::as_i32 default: as_i64().and_then(try_into); TryInto from
i64 into i32 succeeds exactly on the i32 range and preserves the value. -/
def as_i32 {V : Type} (P : ValuePrims V) (v : V) : Option Int :=
  (P.as_i64 v).bind fun u => if -(2 ^ 31) ≤ u ∧ u < 2 ^ 31 then some u else none

/-- ValueTrait::as_i16 default: as_i64().and_then(try_into). -/
def as_i16 {V : Type} (P : ValuePrims V) (v : V) : Option Int :=
  (P.as_i64 v).bind fun u => if -(2 ^ 15) ≤ u ∧ u < 2 ^ 15 then some u else none

/-- ValueTrait::as_i8 default: as_i64().and_then(try_into). -/
def as_i8 {V : Type} (P : ValuePrims V) (v : V) : Option Int :=
  (P.as_i64 v).bind fun u => if -(2 ^ 7) ≤ u ∧ u < 2 ^ 7 then some u else none

/-- ValueTrait::as_u128 default: as_u64().and_then(try_into), where the
conversion from u64 into u128 is the infallible widening. -/
def as_u128 {V : Type} (P : ValuePrims V) (v : V) : Option Nat :=
  (P.as_u64 v).bind fun u => some u

/-- ValueTrait::as_usize default: as_u64().and_then(try_into); usize is
64 bits wide on the supported targets, so TryInto checks the u64 range. -/
def as_usize {V : Type} (P : ValuePrims V) (v : V) : Option Nat :=
  (P.as_u64 v).bind fun u => if u < 2 ^ 64 then some u else none

/-- ValueTrait::as_u32 default: as_u64().and_then(try_into). -/
def as_u32 {V : Type} (P : ValuePrims V) (v : V) : Option Nat :=
  (P.as_u64 v).bind fun u => if u < 2 ^ 32 then some u else none

/-- ValueTrait::as_u16 default: as_u64().and_then(try_into). -/
def as_u16 {V : Type} (P : ValuePrims V) (v : V) : Option Nat :=
  (P.as_u64 v).bind fun u => if u < 2 ^ 16 then some u else none

/-- ValueTrait::as_u8 default: as_u64().and_then(try_into). -/
def as_u8 {V : Type} (P : ValuePrims V) (v : V) : Option Nat :=
  (P.as_u64 v).bind fun u => if u < 2 ^ 8 then some u else none

/-- The exact rational value of f32::MAX, which is (2 - 2^-23) * 2^127. -/
def f32MAX : F64Bits := (2 ^ 24 - 1) * 2 ^ 104

/-- The exact rational value of f32::MIN, which is -f32::MAX. -/
def f32MIN : F64Bits := -f32MAX

/-- ValueTrait::as_f32 default (src/value.rs lines 391-403): gate the f64
payload on the f32 range, then cast.  The cast of an in-range payload is
represented as the identity on the rational model. -/
def as_f32 {V : Type} (P : ValuePrims V) (v : V) : Option F64Bits :=
  (P.as_f64 v).bind fun u => if u ≤ f32MAX ∧ f32MIN ≤ u then some u else none

/-- ValueTrait::is_bool default. -/
def is_bool {V : Type} (P : ValuePrims V) (v : V) : Bool := (P.as_bool v).isSome

/-- ValueTrait::is_i128 default. -/
def is_i128 {V : Type} (P : ValuePrims V) (v : V) : Bool := (as_i128 P v).isSome

/-- ValueTrait::is_i64 default. -/
def is_i64 {V : Type} (P : ValuePrims V) (v : V) : Bool := (P.as_i64 v).isSome

/-- ValueTrait::is_i32 default. -/
def is_i32 {V : Type} (P : ValuePrims V) (v : V) : Bool := (as_i32 P v).isSome

/-- ValueTrait::is_i16 default. -/
def is_i16 {V : Type} (P : ValuePrims V) (v : V) : Bool := (as_i16 P v).isSome

/-- ValueTrait::is_i8 default. -/
def is_i8 {V : Type} (P : ValuePrims V) (v : V) : Bool := (as_i8 P v).isSome

/-- ValueTrait::is_u128 default. -/
def is_u128 {V : Type} (P : ValuePrims V) (v : V) : Bool := (as_u128 P v).isSome

/-- ValueTrait::is_u64 default. -/
def is_u64 {V : Type} (P : ValuePrims V) (v : V) : Bool := (P.as_u64 v).isSome

/-- ValueTrait::is_usize default. -/
def is_usize {V : Type} (P : ValuePrims V) (v : V) : Bool := (as_usize P v).isSome

/-- ValueTrait::is_u32 default. -/
def is_u32 {V : Type} (P : ValuePrims V) (v : V) : Bool := (as_u32 P v).isSome

/-- ValueTrait::is_u16 default. -/
def is_u16 {V : Type} (P : ValuePrims V) (v : V) : Bool := (as_u16 P v).isSome

/-- ValueTrait::is_u8 default. -/
def is_u8 {V : Type} (P : ValuePrims V) (v : V) : Bool := (as_u8 P v).isSome

/-- ValueTrait::is_f64 default. -/
def is_f64 {V : Type} (P : ValuePrims V) (v : V) : Bool := (P.as_f64 v).isSome

/-- ValueTrait::is_f64_castable default. -/
def is_f64_castable {V : Type} (P : ValuePrims V) (v : V) : Bool := (P.cast_f64 v).isSome

/-- ValueTrait::is_f32 default. -/
def is_f32 {V : Type} (P : ValuePrims V) (v : V) : Bool := (as_f32 P v).isSome

/-- ValueTrait::is_str default. -/
def is_str {V : Type} (P : ValuePrims V) (v : V) : Bool := (P.as_str v).isSome

/-- ValueTrait::is_array default. -/
def is_array {V : Type} (P : ValuePrims V) (v : V) : Bool := (P.as_array v).isSome

/-- ValueTrait::is_object default. -/
def is_object {V : Type} (P : ValuePrims V) (v : V) : Bool := (P.as_object v).isSome

/-- Modelled from the spec: the as_array accessor implementation of the
owned Value, whose impl block (crate::value::owned) is not under src/;
per spec section 4.1 the accessor answers only on the matching variant. -/
def OwnedValue.as_array : Value → Option (List Value)
  | .Array xs => some xs
  | _ => none

/-- Modelled from the spec: the as_array_mut accessor of the owned Value;
in the source it returns a mutable borrow of the same payload. -/
def OwnedValue.as_array_mut : Value → Option (List Value) :=
  OwnedValue.as_array

/-- Modelled from the spec: the as_object accessor implementation of the
owned Value. -/
def OwnedValue.as_object : Value → Option Object
  | .Object m => some m
  | _ => none

/-- Modelled from the spec: the as_object_mut accessor of the owned Value;
in the source it returns a mutable borrow of the same payload. -/
def OwnedValue.as_object_mut : Value → Option Object :=
  OwnedValue.as_object

/-- Modelled from the spec: the as_bool accessor implementation of the
owned Value. -/
def OwnedValue.as_bool : Value → Option Bool
  | .Bool b => some b
  | _ => none

/-- Modelled from the spec: the as_i64 accessor implementation of the
owned Value. -/
def OwnedValue.as_i64 : Value → Option Int
  | .I64 i => some i
  | _ => none

/-- Modelled from the spec: the as_u64 accessor implementation of the
owned Value; a non-negative I64 payload reinterprets exactly, anything
else refuses. -/
def OwnedValue.as_u64 : Value → Option Nat
  | .I64 i => if 0 ≤ i then some i.toNat else none
  | _ => none

/-- Modelled from the spec: the as_f64 accessor implementation of the
owned Value; per spec section 4.1 the plain float accessor refuses
integer input. -/
def OwnedValue.as_f64 : Value → Option F64Bits
  | .F64 f => some f
  | _ => none

/-- Modelled from the spec: the cast_f64 operation of the owned Value,
which additionally coerces integers to float. -/
def OwnedValue.cast_f64 : Value → Option F64Bits
  | .F64 f => some f
  | .I64 i => some (i : Rat)
  | _ => none

/-- Modelled from the spec: the as_str accessor implementation of the
owned Value. -/
def OwnedValue.as_str : Value → Option String
  | .String s => some s
  | _ => none

/-- Modelled from the spec: the is_null implementation of the owned
Value. -/
def OwnedValue.is_null : Value → Bool
  | .Null => true
  | _ => false

/-- The primitive accessor record of the owned Value, packaging the
concrete implementations for use with the generic trait defaults. -/
def ownedPrims : ValuePrims Value where
  as_bool := OwnedValue.as_bool
  as_i64 := OwnedValue.as_i64
  as_u64 := OwnedValue.as_u64
  as_f64 := OwnedValue.as_f64
  cast_f64 := OwnedValue.cast_f64
  as_str := OwnedValue.as_str
  as_array := OwnedValue.as_array
  as_object := OwnedValue.as_object
  is_null := OwnedValue.is_null

/-- ValueTrait::get default (src/value.rs lines 155-165):
as_object().and_then(get). -/
def OwnedValue.get (v : Value) (k : String) : Option Value :=
  (OwnedValue.as_object v).bind fun m => objGet m k

/-- ValueTrait::get_mut default (src/value.rs lines 223-231):
as_object_mut().and_then(get_mut); the returned borrow points at the entry
it names, so its presence is what is modelled. -/
def OwnedValue.get_mut (v : Value) (k : String) : Option Value :=
  (OwnedValue.as_object_mut v).bind fun m => objGet m k

/-- ValueTrait::get_idx default (src/value.rs lines 233-239):
as_array().and_then(get). -/
def OwnedValue.get_idx (v : Value) (i : Nat) : Option Value :=
  (OwnedValue.as_array v).bind fun a => a.get? i

/-- ValueTrait::get_idx_mut default (src/value.rs lines 241-245). -/
def OwnedValue.get_idx_mut (v : Value) (i : Nat) : Option Value :=
  (OwnedValue.as_array_mut v).bind fun a => a.get? i

/-- ValueTrait::insert default (src/value.rs lines 167-181):
as_object_mut().ok_or(NotAnObject).map(insert); success returns the
previous value for the key and mutates the object in place, modelled as
also returning the updated value. -/
def OwnedValue.insert (v : Value) (k : String) (x : Value) :
    Except AccessError (Option Value × Value) :=
  match OwnedValue.as_object_mut v with
  | none => .error AccessError.NotAnObject
  | some m =>
    let r := objInsert m k x
    .ok (r.1, .Object r.2)

/-- ValueTrait::remove default (src/value.rs lines 183-196):
as_object_mut().ok_or(NotAnObject).map(remove). -/
def OwnedValue.remove (v : Value) (k : String) :
    Except AccessError (Option Value × Value) :=
  match OwnedValue.as_object_mut v with
  | none => .error AccessError.NotAnObject
  | some m =>
    let r := objRemove m k
    .ok (r.1, .Object r.2)

/-- ValueTrait::push default (src/value.rs lines 198-210):
as_array_mut().ok_or(NotAnArray).map(push). -/
def OwnedValue.push (v : Value) (x : Value) : Except AccessError Value :=
  match OwnedValue.as_array_mut v with
  | none => .error AccessError.NotAnArray
  | some a => .ok (.Array (a ++ [x]))

/-- ValueTrait::pop default (src/value.rs lines 212-221):
as_array_mut().ok_or(NotAnArray).map(pop); Vec::pop removes and returns
the last element, if any. -/
def OwnedValue.pop (v : Value) : Except AccessError (Option Value × Value) :=
  match OwnedValue.as_array_mut v with
  | none => .error AccessError.NotAnArray
  | some a => .ok (a.getLast?, .Array a.dropLast)

/-- Unwrapping helper: MapKeySerializer gives the same verdict on a key and
on the key with its newtype-struct wrappers stripped, since the newtype case
is the only recursive one. -/
theorem mapKeySerialize_strip : (k : SerdeValue) → mapKeySerialize k = mapKeySerialize (stripNewtype k)
  | .vBool _ => rfl
  | .vI8 _ => rfl
  | .vI16 _ => rfl
  | .vI32 _ => rfl
  | .vI64 _ => rfl
  | .vU8 _ => rfl
  | .vU16 _ => rfl
  | .vU32 _ => rfl
  | .vU64 _ => rfl
  | .vF32 _ => rfl
  | .vF64 _ => rfl
  | .vChar _ => rfl
  | .vStr _ => rfl
  | .vBytes _ => rfl
  | .vUnit => rfl
  | .vUnitStruct _ => rfl
  | .vUnitVariant _ _ => rfl
  | .vNewtypeStruct _ v => mapKeySerialize_strip v
  | .vNewtypeVariant _ _ _ => rfl
  | .vNone => rfl
  | .vSome _ => rfl
  | .vSeq _ => rfl
  | .vTuple _ => rfl
  | .vTupleStruct _ _ => rfl
  | .vTupleVariant _ _ _ => rfl
  | .vMap _ => rfl
  | .vStruct _ _ => rfl
  | .vStructVariant _ _ _ => rfl

/-- Unwrapping helper: stripping newtype-struct wrappers never leaves a
newtype struct at the top. -/
theorem stripNewtype_ne_newtype : (k : SerdeValue) → ∀ nm v, stripNewtype k ≠ SerdeValue.vNewtypeStruct nm v
  | .vBool _ => fun _ _ h => SerdeValue.noConfusion h
  | .vI8 _ => fun _ _ h => SerdeValue.noConfusion h
  | .vI16 _ => fun _ _ h => SerdeValue.noConfusion h
  | .vI32 _ => fun _ _ h => SerdeValue.noConfusion h
  | .vI64 _ => fun _ _ h => SerdeValue.noConfusion h
  | .vU8 _ => fun _ _ h => SerdeValue.noConfusion h
  | .vU16 _ => fun _ _ h => SerdeValue.noConfusion h
  | .vU32 _ => fun _ _ h => SerdeValue.noConfusion h
  | .vU64 _ => fun _ _ h => SerdeValue.noConfusion h
  | .vF32 _ => fun _ _ h => SerdeValue.noConfusion h
  | .vF64 _ => fun _ _ h => SerdeValue.noConfusion h
  | .vChar _ => fun _ _ h => SerdeValue.noConfusion h
  | .vStr _ => fun _ _ h => SerdeValue.noConfusion h
  | .vBytes _ => fun _ _ h => SerdeValue.noConfusion h
  | .vUnit => fun _ _ h => SerdeValue.noConfusion h
  | .vUnitStruct _ => fun _ _ h => SerdeValue.noConfusion h
  | .vUnitVariant _ _ => fun _ _ h => SerdeValue.noConfusion h
  | .vNewtypeStruct _ w => stripNewtype_ne_newtype w
  | .vNewtypeVariant _ _ _ => fun _ _ h => SerdeValue.noConfusion h
  | .vNone => fun _ _ h => SerdeValue.noConfusion h
  | .vSome _ => fun _ _ h => SerdeValue.noConfusion h
  | .vSeq _ => fun _ _ h => SerdeValue.noConfusion h
  | .vTuple _ => fun _ _ h => SerdeValue.noConfusion h
  | .vTupleStruct _ _ => fun _ _ h => SerdeValue.noConfusion h
  | .vTupleVariant _ _ _ => fun _ _ h => SerdeValue.noConfusion h
  | .vMap _ => fun _ _ h => SerdeValue.noConfusion h
  | .vStruct _ _ => fun _ _ h => SerdeValue.noConfusion h
  | .vStructVariant _ _ _ => fun _ _ h => SerdeValue.noConfusion h

/-- C1 counterexample: the key sub-protocol as claimed — accepted exactly
when the key is a plain string or a bare named alternative — is refuted by
a newtype struct wrapped around a plain string, which MapKeySerializer
accepts by recursing through serialize_newtype_struct. -/
theorem c1_key_subprotocol_counterexample :
    ¬ ∀ k : SerdeValue, (∃ s, mapKeySerialize k = Except.ok s) →
      (∃ s, k = SerdeValue.vStr s) ∨ (∃ nm var, k = SerdeValue.vUnitVariant nm var) := by
  intro h
  rcases h (SerdeValue.vNewtypeStruct "N" (SerdeValue.vStr "k")) ⟨"k", rfl⟩ with ⟨s, hs⟩ | ⟨nm, var, hv⟩
  · exact SerdeValue.noConfusion hs
  · exact SerdeValue.noConfusion hv

/-- C1 (amended): a map key is accepted by the encode engine key
sub-protocol exactly when, after stripping newtype-struct wrappers, it is a
plain string (which becomes the Object key) or a bare named alternative
(whose name becomes the Object key); every other shape — bool, any integer
width, any float width, char, bytes, unit, unit struct, none, some,
payload-carrying variants, sequences, tuples, maps, structs — fails with
the KeyMustBeAString error. -/
theorem c1_key_subprotocol (k : SerdeValue) :
    (∀ s, stripNewtype k = SerdeValue.vStr s → mapKeySerialize k = Except.ok s) ∧
    (∀ nm var, stripNewtype k = SerdeValue.vUnitVariant nm var →
      mapKeySerialize k = Except.ok var) ∧
    ((∀ s, stripNewtype k ≠ SerdeValue.vStr s) →
     (∀ nm var, stripNewtype k ≠ SerdeValue.vUnitVariant nm var) →
     mapKeySerialize k = Except.error ErrorType.KeyMustBeAString) := by
  refine ⟨?_, ?_, ?_⟩
  · intro s hs
    rw [mapKeySerialize_strip, hs]
    rfl
  · intro nm var hv
    rw [mapKeySerialize_strip, hv]
    rfl
  · intro h1 h2
    rw [mapKeySerialize_strip]
    cases hs : stripNewtype k with
    | vStr s => exact absurd hs (h1 s)
    | vUnitVariant nm var => exact absurd hs (h2 nm var)
    | vNewtypeStruct nm v => exact absurd hs (stripNewtype_ne_newtype k nm v)
    | _ => rfl

/-- C1 witness: a concrete accepted bare named alternative under one
newtype wrapper, resolved through the amended theorem. -/
theorem c1_key_subprotocol_witness :
    mapKeySerialize (SerdeValue.vNewtypeStruct "O" (SerdeValue.vUnitVariant "E" "Foo")) =
      Except.ok "Foo" :=
  (c1_key_subprotocol (SerdeValue.vNewtypeStruct "O" (SerdeValue.vUnitVariant "E" "Foo"))).2.1
    "E" "Foo" rfl

/-- C2: for every unsigned 64-bit input u the encode engine produces,
without error, the I64 value that bit-reinterprets u: it is the unique
two's-complement representative of u mod 2^64 in the signed 64-bit range,
and every u at or above 2^63 comes out negative. -/
theorem c2_u64_bit_reinterpretation (u : Nat) (h : u < 2 ^ 64) :
    toValue (SerdeValue.vU64 u) = some (Except.ok (Value.I64 (u64_as_i64 u))) ∧
    u64_as_i64 u % 2 ^ 64 = (u : Int) ∧
    (-(2 ^ 63) ≤ u64_as_i64 u ∧ u64_as_i64 u < 2 ^ 63) ∧
    (2 ^ 63 ≤ u → u64_as_i64 u < 0) := by
  refine ⟨by simp [toValue, serialize_u64], ?_, ?_, ?_⟩ <;>
    (unfold u64_as_i64; split <;> omega)

/-- C2 witness: u64::MAX bit-reinterprets to the negative value -1. -/
theorem c2_u64_bit_reinterpretation_witness :
    toValue (SerdeValue.vU64 (2 ^ 64 - 1)) =
      some (Except.ok (Value.I64 (u64_as_i64 (2 ^ 64 - 1)))) ∧
    u64_as_i64 (2 ^ 64 - 1) < 0 ∧
    u64_as_i64 (2 ^ 64 - 1) = -1 := by
  have h := c2_u64_bit_reinterpretation (2 ^ 64 - 1) (by norm_num)
  exact ⟨h.1, h.2.2.2 (by norm_num), by unfold u64_as_i64; norm_num⟩

/-- C7: a byte sequence encodes, without error, to an Array of the same
length holding each byte widened to I64; no dedicated binary variant is
produced. -/
theorem c7_bytes_to_i64_array (bs : List Nat) :
    toValue (SerdeValue.vBytes bs) =
      some (Except.ok (Value.Array (bs.map fun b => Value.I64 (Int.ofNat b)))) ∧
    (bs.map fun b => Value.I64 (Int.ofNat b)).length = bs.length := by
  exact ⟨by simp [toValue, serialize_bytes], by rw [List.length_map]⟩

/-- C8: unit, a unit struct and an absent optional encode to Null; a
present optional and a newtype wrapper encode to exactly the encoding of
the wrapped value. -/
theorem c8_unit_option_newtype_transparent (v : SerdeValue) (name : String) :
    toValue SerdeValue.vUnit = some (Except.ok Value.Null) ∧
    toValue SerdeValue.vNone = some (Except.ok Value.Null) ∧
    toValue (SerdeValue.vUnitStruct name) = some (Except.ok Value.Null) ∧
    toValue (SerdeValue.vSome v) = toValue v ∧
    toValue (SerdeValue.vNewtypeStruct name v) = toValue v := by
  refine ⟨?_, ?_, ?_, ?_, ?_⟩ <;> simp [toValue, serialize_unit]

/-- C10: the map-key sub-protocol treats a newtype struct transparently: a
newtype wrapper around any accepted key yields the same key string, and in
particular a newtype-wrapped plain string is accepted with the inner string
as the Object key. -/
theorem c10_newtype_key_transparent (nm : String) (k : SerdeValue) (s : String) :
    (mapKeySerialize k = Except.ok s →
      mapKeySerialize (SerdeValue.vNewtypeStruct nm k) = Except.ok s) ∧
    mapKeySerialize (SerdeValue.vNewtypeStruct nm (SerdeValue.vStr s)) = Except.ok s := by
  exact ⟨fun h => h, rfl⟩

/-- C10 witness: a concrete newtype-wrapped string key is accepted. -/
theorem c10_newtype_key_transparent_witness :
    mapKeySerialize (SerdeValue.vNewtypeStruct "N" (SerdeValue.vStr "x")) = Except.ok "x" :=
  (c10_newtype_key_transparent "N" (SerdeValue.vStr "x") "x").1 rfl

/-- C4: named alternatives encode as: bare alternative to String(name);
one-payload alternative to a singleton Object mapping the name to the
encoded payload; positional payloads to a singleton Object mapping the name
to an Array of the encoded payloads; labeled fields to a singleton Object
mapping the name to the Object of encoded fields. -/
theorem c4_variant_shapes (nm variant : String) :
    toValue (SerdeValue.vUnitVariant nm variant) =
      some (Except.ok (Value.String variant)) ∧
    (∀ p w, toValue p = some (Except.ok w) →
      toValue (SerdeValue.vNewtypeVariant nm variant p) =
        some (Except.ok (Value.Object [(variant, w)]))) ∧
    (∀ ps ws, toValueList ps = some (Except.ok ws) →
      toValue (SerdeValue.vTupleVariant nm variant ps) =
        some (Except.ok (Value.Object [(variant, Value.Array ws)]))) ∧
    (∀ fs m, serializeStructVariantFields [] fs = some (Except.ok m) →
      toValue (SerdeValue.vStructVariant nm variant fs) =
        some (Except.ok (Value.Object [(variant, Value.Object m)]))) := by
  refine ⟨by simp [toValue, serialize_str], ?_, ?_, ?_⟩
  · intro p w h
    simp [toValue, h, objInsert]
  · intro ps ws h
    simp [toValue, h, objInsert]
  · intro fs m h
    simp [toValue, h, objInsert]

/-- C4 witness: the four concrete variant shapes of the spec, Foo, Foo(5),
Foo(1,2) and Foo{x:1}. -/
theorem c4_variant_shapes_witness :
    toValue (SerdeValue.vUnitVariant "E" "Foo") =
      some (Except.ok (Value.String "Foo")) ∧
    toValue (SerdeValue.vNewtypeVariant "E" "Foo" (SerdeValue.vI32 5)) =
      some (Except.ok (Value.Object [("Foo", Value.I64 5)])) ∧
    toValue (SerdeValue.vTupleVariant "E" "Foo" [SerdeValue.vI32 1, SerdeValue.vI32 2]) =
      some (Except.ok (Value.Object [("Foo", Value.Array [Value.I64 1, Value.I64 2])])) ∧
    toValue (SerdeValue.vStructVariant "E" "Foo" [("x", SerdeValue.vI32 1)]) =
      some (Except.ok (Value.Object [("Foo", Value.Object [("x", Value.I64 1)])])) := by
  have h := c4_variant_shapes "E" "Foo"
  refine ⟨h.1, h.2.1 _ _ ?_, h.2.2.1 _ _ ?_, h.2.2.2 _ _ ?_⟩ <;>
    simp [toValue, toValueList, serializeStructVariantFields, serialize_i64, objInsert]

/-- Helper: a successful serialize_key always leaves a pending key. -/
theorem serialize_key_isSome {st : SMapState} {k : SerdeValue} {st1 : SMapState}
    (h : serialize_key st k = Except.ok st1) : st1.next_key.isSome := by
  unfold serialize_key at h
  cases hmk : mapKeySerialize k with
  | error e => rw [hmk] at h; exact Except.noConfusion h
  | ok s => rw [hmk] at h; cases h; simp

mutual

/-- Totality helper: the encode engine never reaches the panic branch on
any self-describing input, because the serde drivers always supply a key
before its value. -/
theorem toValue_ne_none : (sv : SerdeValue) → toValue sv ≠ none
  | .vBool _ => by simp [toValue]
  | .vI8 _ => by simp [toValue]
  | .vI16 _ => by simp [toValue]
  | .vI32 _ => by simp [toValue]
  | .vI64 _ => by simp [toValue]
  | .vU8 _ => by simp [toValue]
  | .vU16 _ => by simp [toValue]
  | .vU32 _ => by simp [toValue]
  | .vU64 _ => by simp [toValue]
  | .vF32 _ => by simp [toValue]
  | .vF64 _ => by simp [toValue]
  | .vChar _ => by simp [toValue]
  | .vStr _ => by simp [toValue]
  | .vBytes _ => by simp [toValue]
  | .vUnit => by simp [toValue]
  | .vUnitStruct _ => by simp [toValue]
  | .vUnitVariant _ _ => by simp [toValue]
  | .vNewtypeStruct _ v => by
    have ih := toValue_ne_none v
    simpa [toValue] using ih
  | .vNewtypeVariant _ variant v => by
    simp only [toValue]
    cases h : toValue v with
    | none => exact absurd h (toValue_ne_none v)
    | some r => cases r <;> simp
  | .vNone => by simp [toValue]
  | .vSome v => by
    have ih := toValue_ne_none v
    simpa [toValue] using ih
  | .vSeq vs => by
    simp only [toValue]
    cases h : toValueList vs with
    | none => exact absurd h (toValueList_ne_none vs)
    | some r => cases r <;> simp
  | .vTuple vs => by
    simp only [toValue]
    cases h : toValueList vs with
    | none => exact absurd h (toValueList_ne_none vs)
    | some r => cases r <;> simp
  | .vTupleStruct _ vs => by
    simp only [toValue]
    cases h : toValueList vs with
    | none => exact absurd h (toValueList_ne_none vs)
    | some r => cases r <;> simp
  | .vTupleVariant _ variant vs => by
    simp only [toValue]
    cases h : toValueList vs with
    | none => exact absurd h (toValueList_ne_none vs)
    | some r => cases r <;> simp
  | .vMap entries => by
    simp only [toValue]
    cases h : serializeMapEntries ⟨[], none⟩ entries with
    | none => exact absurd h (serializeMapEntries_ne_none ⟨[], none⟩ entries)
    | some r => cases r <;> simp
  | .vStruct _ fields => by
    simp only [toValue]
    cases h : serializeStructFields ⟨[], none⟩ fields with
    | none => exact absurd h (serializeStructFields_ne_none ⟨[], none⟩ fields)
    | some r => cases r <;> simp
  | .vStructVariant _ variant fields => by
    simp only [toValue]
    cases h : serializeStructVariantFields [] fields with
    | none => exact absurd h (serializeStructVariantFields_ne_none [] fields)
    | some r => cases r <;> simp
termination_by sv => sizeOf sv
decreasing_by all_goals simp_wf

/-- Totality helper for the element loop. -/
theorem toValueList_ne_none : (l : List SerdeValue) → toValueList l ≠ none
  | [] => by simp [toValueList]
  | v :: vs => by
    simp only [toValueList]
    cases h : toValue v with
    | none => exact absurd h (toValue_ne_none v)
    | some r =>
      cases r with
      | error e => simp
      | ok w =>
        cases h2 : toValueList vs with
        | none => exact absurd h2 (toValueList_ne_none vs)
        | some r2 => cases r2 <;> simp
termination_by l => sizeOf l
decreasing_by all_goals simp_wf; all_goals omega

/-- Totality helper: serialize_value cannot panic while a key is pending. -/
theorem serialize_value_ne_none : (st : SMapState) → (v : SerdeValue) →
    st.next_key.isSome → serialize_value st v ≠ none
  | st, v, h => by
    obtain ⟨key, hk⟩ := Option.isSome_iff_exists.mp h
    simp only [serialize_value, hk]
    cases h2 : toValue v with
    | none => exact absurd h2 (toValue_ne_none v)
    | some r => cases r <;> simp
termination_by _ v _ => sizeOf v + 1
decreasing_by all_goals simp_wf

/-- Totality helper for the map entry loop. -/
theorem serializeMapEntries_ne_none : (st : SMapState) →
    (l : List (SerdeValue × SerdeValue)) → serializeMapEntries st l ≠ none
  | _, [] => by simp [serializeMapEntries]
  | st, (k, v) :: rest => by
    simp only [serializeMapEntries]
    cases hk : serialize_key st k with
    | error e => simp
    | ok st1 =>
      cases h2 : serialize_value st1 v with
      | none => exact absurd h2 (serialize_value_ne_none st1 v (serialize_key_isSome hk))
      | some r =>
        cases r with
        | error e => simp [h2]
        | ok st2 => simpa [h2] using serializeMapEntries_ne_none st2 rest
termination_by _ l => sizeOf l
decreasing_by all_goals simp_wf <;> omega

/-- Totality helper for the struct field loop. -/
theorem serializeStructFields_ne_none : (st : SMapState) →
    (l : List (String × SerdeValue)) → serializeStructFields st l ≠ none
  | _, [] => by simp [serializeStructFields]
  | st, (k, v) :: rest => by
    simp only [serializeStructFields]
    cases hk : serialize_key st (.vStr k) with
    | error e => simp
    | ok st1 =>
      cases h2 : serialize_value st1 v with
      | none => exact absurd h2 (serialize_value_ne_none st1 v (serialize_key_isSome hk))
      | some r =>
        cases r with
        | error e => simp [h2]
        | ok st2 => simpa [h2] using serializeStructFields_ne_none st2 rest
termination_by _ l => sizeOf l
decreasing_by all_goals simp_wf <;> omega

/-- Totality helper for the struct variant field loop. -/
theorem serializeStructVariantFields_ne_none : (m : Object) →
    (l : List (String × SerdeValue)) → serializeStructVariantFields m l ≠ none
  | _, [] => by simp [serializeStructVariantFields]
  | m, (k, v) :: rest => by
    simp only [serializeStructVariantFields]
    cases h : toValue v with
    | none => exact absurd h (toValue_ne_none v)
    | some r =>
      cases r with
      | error e => simp
      | ok w => simpa using serializeStructVariantFields_ne_none (objInsert m k w).2 rest
termination_by _ l => sizeOf l
decreasing_by all_goals simp_wf <;> omega

end

/-- C3: during encode of a mapping, serialize_value aborts (the panic
branch, modelled as the result none, distinct from every recoverable
some (Except.error _) result) exactly when no key is pending; and no
self-describing input can trigger it, since the engine as driven by the
serde entry points never reaches the panic branch. -/
theorem c3_value_before_key_fatal :
    (∀ (st : SMapState) (v : SerdeValue),
      serialize_value st v = none ↔ st.next_key = none) ∧
    (∀ sv : SerdeValue, toValue sv ≠ none) := by
  constructor
  · intro st v
    constructor
    · intro h
      cases hk : st.next_key with
      | none => rfl
      | some key =>
        exact absurd h (serialize_value_ne_none st v (by rw [hk]; rfl))
    · intro h
      simp [serialize_value, h]
  · exact toValue_ne_none

/-- C3 witness: with no pending key, a concrete serialize_value call takes
the panic branch. -/
theorem c3_value_before_key_fatal_witness :
    serialize_value ⟨[], none⟩ (SerdeValue.vBool true) = none :=
  (c3_value_before_key_fatal.1 ⟨[], none⟩ (SerdeValue.vBool true)).mpr rfl

/-- HashMap model helper: insert reports exactly the previous value that
get would have found for the key. -/
theorem objInsert_fst (m : Object) (k : String) (x : Value) :
    (objInsert m k x).1 = objGet m k := by
  induction m with
  | nil => simp [objInsert, objGet]
  | cons e rest ih =>
    obtain ⟨k1, w1⟩ := e
    by_cases h : k1 = k <;> simp [objInsert, objGet, h, ih]

/-- HashMap model helper: remove reports exactly the value that get would
have found for the key. -/
theorem objRemove_fst (m : Object) (k : String) :
    (objRemove m k).1 = objGet m k := by
  induction m with
  | nil => simp [objRemove, objGet]
  | cons e rest ih =>
    obtain ⟨k1, w1⟩ := e
    by_cases h : k1 = k <;> simp [objRemove, objGet, h, ih]

/-- C5: key lookup and mutable key lookup answer only on an Object holding
the key; index lookup and mutable index lookup answer only on an Array
holding the index; insert and remove fail with NotAnObject exactly on a
non-Object and otherwise behave as the map insert and remove, insert
returning the previous value for the key; push and pop fail with
NotAnArray exactly on a non-Array and otherwise behave as the vector push
and pop. -/
theorem c5_structural_access (v : Value) (k : String) (i : Nat) (x : Value) :
    (∀ w, OwnedValue.get v k = some w ↔
      ∃ m, v = Value.Object m ∧ objGet m k = some w) ∧
    (∀ w, OwnedValue.get_mut v k = some w ↔
      ∃ m, v = Value.Object m ∧ objGet m k = some w) ∧
    (∀ w, OwnedValue.get_idx v i = some w ↔
      ∃ a, v = Value.Array a ∧ a.get? i = some w) ∧
    (∀ w, OwnedValue.get_idx_mut v i = some w ↔
      ∃ a, v = Value.Array a ∧ a.get? i = some w) ∧
    ((OwnedValue.insert v k x = Except.error AccessError.NotAnObject ↔
        ¬ ∃ m, v = Value.Object m) ∧
      ∀ m, v = Value.Object m →
        OwnedValue.insert v k x = Except.ok (objGet m k, Value.Object (objInsert m k x).2)) ∧
    ((OwnedValue.remove v k = Except.error AccessError.NotAnObject ↔
        ¬ ∃ m, v = Value.Object m) ∧
      ∀ m, v = Value.Object m →
        OwnedValue.remove v k = Except.ok (objGet m k, Value.Object (objRemove m k).2)) ∧
    ((OwnedValue.push v x = Except.error AccessError.NotAnArray ↔
        ¬ ∃ a, v = Value.Array a) ∧
      ∀ a, v = Value.Array a → OwnedValue.push v x = Except.ok (Value.Array (a ++ [x]))) ∧
    ((OwnedValue.pop v = Except.error AccessError.NotAnArray ↔
        ¬ ∃ a, v = Value.Array a) ∧
      ∀ a, v = Value.Array a →
        OwnedValue.pop v = Except.ok (a.getLast?, Value.Array a.dropLast)) := by
  cases v <;>
    refine ⟨?_, ?_, ?_, ?_, ⟨?_, ?_⟩, ⟨?_, ?_⟩, ⟨?_, ?_⟩, ⟨?_, ?_⟩⟩ <;>
    simp [OwnedValue.get, OwnedValue.get_mut, OwnedValue.get_idx,
      OwnedValue.get_idx_mut, OwnedValue.insert, OwnedValue.remove,
      OwnedValue.push, OwnedValue.pop, OwnedValue.as_object,
      OwnedValue.as_object_mut, OwnedValue.as_array, OwnedValue.as_array_mut,
      objInsert_fst, objRemove_fst]

/-- C5 witness: concrete lookups, a successful insert reporting no previous
value, and a push refused on an Object. -/
theorem c5_structural_access_witness :
    OwnedValue.get (Value.Object [("a", Value.Null)]) "a" = some Value.Null ∧
    OwnedValue.insert (Value.Object []) "k" Value.Null =
      Except.ok (none, Value.Object [("k", Value.Null)]) ∧
    OwnedValue.push (Value.Object []) Value.Null =
      Except.error AccessError.NotAnArray := by
  have h1 := c5_structural_access (Value.Object [("a", Value.Null)]) "a" 0 Value.Null
  have h2 := c5_structural_access (Value.Object []) "k" 0 Value.Null
  refine ⟨(h1.1 Value.Null).mpr ⟨[("a", Value.Null)], rfl, by simp [objGet]⟩, ?_, ?_⟩
  · have := h2.2.2.2.2.1.2 [] rfl
    simpa [objGet, objInsert] using this
  · exact (h2.2.2.2.2.2.2.1.1).mpr (by simp)

/-- C6: every narrower fallible numeric accessor is the checked narrowing
of its family head: the signed family reads through as_i64, the unsigned
family through as_u64 and the float family through as_f64, answering
exactly when the canonical value is representable at the narrower width
and then answering that value.  The two range hypotheses record that the
canonical accessors return machine i64 and u64 values. -/
theorem c6_checked_narrowing {V : Type} (P : ValuePrims V) (v : V)
    (h64 : ∀ m, P.as_i64 v = some m → -(2 ^ 63) ≤ m ∧ m < 2 ^ 63)
    (hu64 : ∀ m, P.as_u64 v = some m → m < 2 ^ 64) :
    (∀ n, as_i8 P v = some n ↔ P.as_i64 v = some n ∧ -(2 ^ 7) ≤ n ∧ n < 2 ^ 7) ∧
    (∀ n, as_i16 P v = some n ↔ P.as_i64 v = some n ∧ -(2 ^ 15) ≤ n ∧ n < 2 ^ 15) ∧
    (∀ n, as_i32 P v = some n ↔ P.as_i64 v = some n ∧ -(2 ^ 31) ≤ n ∧ n < 2 ^ 31) ∧
    (∀ n, as_i128 P v = some n ↔ P.as_i64 v = some n ∧ -(2 ^ 127) ≤ n ∧ n < 2 ^ 127) ∧
    (∀ n, as_u8 P v = some n ↔ P.as_u64 v = some n ∧ n < 2 ^ 8) ∧
    (∀ n, as_u16 P v = some n ↔ P.as_u64 v = some n ∧ n < 2 ^ 16) ∧
    (∀ n, as_u32 P v = some n ↔ P.as_u64 v = some n ∧ n < 2 ^ 32) ∧
    (∀ n, as_usize P v = some n ↔ P.as_u64 v = some n ∧ n < 2 ^ 64) ∧
    (∀ n, as_u128 P v = some n ↔ P.as_u64 v = some n ∧ n < 2 ^ 128) ∧
    (∀ q, as_f32 P v = some q ↔ P.as_f64 v = some q ∧ f32MIN ≤ q ∧ q ≤ f32MAX) := by
  refine ⟨?_, ?_, ?_, ?_, ?_, ?_, ?_, ?_, ?_, ?_⟩
  · intro n
    cases h : P.as_i64 v with
    | none => simp [as_i8, h]
    | some m =>
      by_cases hc : -(2 ^ 7 : Int) ≤ m ∧ m < 2 ^ 7 <;> simp [as_i8, h, hc] <;> omega
  · intro n
    cases h : P.as_i64 v with
    | none => simp [as_i16, h]
    | some m =>
      by_cases hc : -(2 ^ 15 : Int) ≤ m ∧ m < 2 ^ 15 <;> simp [as_i16, h, hc] <;> omega
  · intro n
    cases h : P.as_i64 v with
    | none => simp [as_i32, h]
    | some m =>
      by_cases hc : -(2 ^ 31 : Int) ≤ m ∧ m < 2 ^ 31 <;> simp [as_i32, h, hc] <;> omega
  · intro n
    cases h : P.as_i64 v with
    | none => simp [as_i128, h]
    | some m =>
      have hr := h64 m h
      simp [as_i128, h]
      omega
  · intro n
    cases h : P.as_u64 v with
    | none => simp [as_u8, h]
    | some m =>
      by_cases hc : m < 2 ^ 8 <;> simp [as_u8, h, hc] <;> omega
  · intro n
    cases h : P.as_u64 v with
    | none => simp [as_u16, h]
    | some m =>
      by_cases hc : m < 2 ^ 16 <;> simp [as_u16, h, hc] <;> omega
  · intro n
    cases h : P.as_u64 v with
    | none => simp [as_u32, h]
    | some m =>
      by_cases hc : m < 2 ^ 32 <;> simp [as_u32, h, hc] <;> omega
  · intro n
    cases h : P.as_u64 v with
    | none => simp [as_usize, h]
    | some m =>
      by_cases hc : m < 2 ^ 64 <;> simp [as_usize, h, hc] <;> omega
  · intro n
    cases h : P.as_u64 v with
    | none => simp [as_u128, h]
    | some m =>
      have hr := hu64 m h
      simp [as_u128, h]
      omega
  · intro q
    cases h : P.as_f64 v with
    | none => simp [as_f32, h]
    | some q0 =>
      by_cases hc : q0 ≤ f32MAX ∧ f32MIN ≤ q0
      · simp only [as_f32, h, Option.some_bind, if_pos hc, Option.some.injEq]
        constructor
        · rintro rfl
          exact ⟨rfl, hc.2, hc.1⟩
        · rintro ⟨hq, _, _⟩
          exact hq
      · simp only [as_f32, h, Option.some_bind, if_neg hc, Option.some.injEq]
        constructor
        · intro hf
          exact Option.noConfusion hf
        · rintro ⟨hq, h1, h2⟩
          cases hq
          exact absurd ⟨h2, h1⟩ hc

/-- C6 witness: on the owned representation, a small I64 narrows into i8
and u8 with the value preserved. -/
theorem c6_checked_narrowing_witness :
    as_i8 ownedPrims (Value.I64 5) = some 5 ∧
    as_u8 ownedPrims (Value.I64 200) = some 200 := by
  have h1 := c6_checked_narrowing ownedPrims (Value.I64 5)
    (by intro m hm; simp [ownedPrims, OwnedValue.as_i64] at hm; omega)
    (by intro m hm; simp [ownedPrims, OwnedValue.as_u64] at hm; omega)
  have h2 := c6_checked_narrowing ownedPrims (Value.I64 200)
    (by intro m hm; simp [ownedPrims, OwnedValue.as_i64] at hm; omega)
    (by intro m hm; simp [ownedPrims, OwnedValue.as_u64] at hm; omega)
  constructor
  · exact (h1.1 5).mpr ⟨rfl, by norm_num, by norm_num⟩
  · exact (h2.2.2.2.2.1 200).mpr ⟨by simp [ownedPrims, OwnedValue.as_u64], by norm_num⟩

/-- C9: every boolean introspection wrapper answers true exactly when the
matching accessor answers a value, and is_f64_castable answers true exactly
when cast_f64 answers a value. -/
theorem c9_is_wrappers {V : Type} (P : ValuePrims V) (v : V) :
    (is_bool P v = true ↔ ∃ b, P.as_bool v = some b) ∧
    (is_i8 P v = true ↔ ∃ n, as_i8 P v = some n) ∧
    (is_i16 P v = true ↔ ∃ n, as_i16 P v = some n) ∧
    (is_i32 P v = true ↔ ∃ n, as_i32 P v = some n) ∧
    (is_i64 P v = true ↔ ∃ n, P.as_i64 v = some n) ∧
    (is_i128 P v = true ↔ ∃ n, as_i128 P v = some n) ∧
    (is_u8 P v = true ↔ ∃ n, as_u8 P v = some n) ∧
    (is_u16 P v = true ↔ ∃ n, as_u16 P v = some n) ∧
    (is_u32 P v = true ↔ ∃ n, as_u32 P v = some n) ∧
    (is_u64 P v = true ↔ ∃ n, P.as_u64 v = some n) ∧
    (is_u128 P v = true ↔ ∃ n, as_u128 P v = some n) ∧
    (is_usize P v = true ↔ ∃ n, as_usize P v = some n) ∧
    (is_f32 P v = true ↔ ∃ q, as_f32 P v = some q) ∧
    (is_f64 P v = true ↔ ∃ q, P.as_f64 v = some q) ∧
    (is_str P v = true ↔ ∃ s, P.as_str v = some s) ∧
    (is_array P v = true ↔ ∃ a, P.as_array v = some a) ∧
    (is_object P v = true ↔ ∃ m, P.as_object v = some m) ∧
    (is_f64_castable P v = true ↔ ∃ q, P.cast_f64 v = some q) := by
  refine ⟨?_, ?_, ?_, ?_, ?_, ?_, ?_, ?_, ?_, ?_, ?_, ?_, ?_, ?_, ?_, ?_, ?_, ?_⟩ <;>
    simp [is_bool, is_i8, is_i16, is_i32, is_i64, is_i128, is_u8, is_u16,
      is_u32, is_u64, is_u128, is_usize, is_f32, is_f64, is_str, is_array,
      is_object, is_f64_castable, Option.isSome_iff_exists]
